import Mathlib

/-!
Verification development for the Marigold-DC depth-completion pipeline
(`marigold_dc.py`, class `MarigoldDepthCompletionPipeline.__call__`).

The pipeline's own arithmetic — input validation (lines 94-99), the valid
mask (line 132), the sparse statistics (lines 145-148), the affine
calibration map (lines 158-161), the masked L1+L2 guidance loss
(lines 181-186, 221-224), the denoising-loop orchestration (lines 188-250)
and the output shaping (lines 254-262) — is embedded over `ℚ` (the code
computes in single-precision floats; the rational model captures its exact
arithmetic in the finite regime).  The gradient-rescaling arithmetic of
lines 204-232 takes Euclidean norms, i.e. square roots, so it is embedded
over `ℝ`.  Where comparison semantics on non-finite float values matter
(the `sparse_depth > 0` mask), a small IEEE-style value type `FVal` is
used.  External collaborators — the U-Net, the DDIM scheduler, the VAE
decode/unpad/resize path and the autodiff/Adam optimizer — are out of
scope per the spec (§1, §6) and enter as parameters of an `Externals`
structure, mirroring the spec's abstract interfaces.
-/

namespace MarigoldDC

/-- IEEE-754-style float value: a finite value (modelled exactly as a
rational), positive or negative infinity, or NaN.  Used to model the
comparison semantics of `sparse_depth > 0` on non-finite entries. -/
inductive FVal where
  | fin (q : ℚ)
  | posInf
  | negInf
  | nan
deriving DecidableEq

/-- IEEE comparison `v > 0`, as torch evaluates `sparse_depth > 0`
(line 132): a finite value compares by its magnitude, `+∞ > 0` is true,
`-∞ > 0` is false, and any comparison with NaN is false. -/
def FVal.gtZero : FVal → Bool
  | .fin q => decide (0 < q)
  | .posInf => true
  | .negInf => false
  | .nan => false

/-- Whether a float value is finite (neither an infinity nor NaN). -/
def FVal.isFinite : FVal → Bool
  | .fin _ => true
  | _ => false

/-- The valid-measurement mask over float values: `sparse_mask =
sparse_depth > 0` (line 132), elementwise over the flattened field. -/
def sparseMaskF (d : List FVal) : List Bool := d.map FVal.gtZero

/-- The spec's notion of a valid entry (spec §3): a measurement is valid
exactly when it is a positive finite value; entries that are `≤ 0` or
non-finite denote "unmeasured".  Stated from the spec's words, for
comparison with the code's `FVal.gtZero` mask. -/
def specValidEntry : FVal → Bool
  | .fin q => decide (0 < q)
  | _ => false

/-- The valid-measurement mask in the finite (rational) regime:
`sparse_mask = sparse_depth > 0` (line 132) over the flattened field. -/
def sparseMask (d : List ℚ) : List Bool := d.map (fun q => decide (0 < q))

/-- Boolean-mask selection, as torch advanced indexing `x[mask]` flattens
and keeps exactly the entries at `true` positions, in order (lines 145-146
and 223).  Torch requires the mask and tensor shapes to agree; all uses
below are at matching lengths. -/
def maskSelect : List Bool → List ℚ → List ℚ
  | true :: ms, x :: xs => x :: maskSelect ms xs
  | false :: ms, _ :: xs => maskSelect ms xs
  | _, _ => []

/-- Full reduction `tensor.min()` over all elements (line 145); `none` on
an empty tensor, where torch raises a RuntimeError. -/
def reduceMin : List ℚ → Option ℚ
  | [] => none
  | x :: xs =>
    match reduceMin xs with
    | none => some x
    | some m => some (min x m)

/-- Full reduction `tensor.max()` over all elements (line 146); `none` on
an empty tensor, where torch raises a RuntimeError. -/
def reduceMax : List ℚ → Option ℚ
  | [] => none
  | x :: xs =>
    match reduceMax xs with
    | none => some x
    | some m => some (max x m)

/-- The errors the embedded invocation can surface. -/
inductive PipeError where
  /-- The `ValueError` of lines 95-99: sparse depth is not a 2D array. -/
  | sparseNotTwoDim
  /-- The torch RuntimeError raised by `.min()` / `.max()` on an empty
  tensor (lines 145-146 when the mask selects no entries). -/
  | emptyReduction
deriving DecidableEq

/-- The interpolation-mode default of the `__call__` signature (line 61). -/
def bilinearMode : String := "bilinear"

/-- The other interpolation mode the docstring admits (line 81). -/
def nearestMode : String := "nearest"

/-- An interpolation mode outside the documented options, used to probe
the boundary validation. -/
def cubicMode : String := "cubic"

/-- The input validation `__call__` performs before any processing
(lines 94-99): only the rank of the sparse depth array is checked.  The
image size, the step count and the interpolation mode are in scope at this
point in the source but are not examined by any check. -/
def validateCallInputs (sparseShape : List ℕ) (imageShape : ℕ × ℕ)
    (numInferenceSteps : ℤ) (interpolationMode : String) :
    Except PipeError Unit :=
  if sparseShape.length ≠ 2 then .error PipeError.sparseNotTwoDim
  else .ok ()

/-- The affine calibration map of lines 158-161:
`(scale**2) * sparse_range * depth + (shift**2) * sparse_lower`,
elementwise over the depth tensor.  This is the scalar calibration mode
(lines 141-143); the per-pixel mode broadcasts a parameter grid through
the same formula. -/
def affine_to_metric (scale shift sparseRange sparseLower : ℚ)
    (depth : List ℚ) : List ℚ :=
  depth.map (fun d => scale ^ 2 * sparseRange * d + shift ^ 2 * sparseLower)

/-- The guidance loss of lines 181-186: `l1_loss(input, target) +
mse_loss(input, target)`, both with the default mean reduction over all
elements of the (equal-shaped) inputs. -/
def loss_l1l2 (input target : List ℚ) : ℚ :=
  let diffs := List.zipWith (fun a b => a - b) input target
  let out_l1 := (diffs.map (fun d => |d|)).sum / (input.length : ℚ)
  let out_l2 := (diffs.map (fun d => d ^ 2)).sum / (input.length : ℚ)
  out_l1 + out_l2

/-- Sum of an elementwise error `f (pred - target)` over exactly the
mask-selected positions.  Helper for stating the spec's masked means. -/
def maskedErrSum (f : ℚ → ℚ) : List Bool → List ℚ → List ℚ → ℚ
  | true :: ms, p :: ps, t :: ts => f (p - t) + maskedErrSum f ms ps ts
  | false :: ms, _ :: ps, _ :: ts => maskedErrSum f ms ps ts
  | _, _, _ => 0

/-- Number of `true` entries of a mask. -/
def countTrue : List Bool → ℕ
  | [] => 0
  | true :: ms => countTrue ms + 1
  | false :: ms => countTrue ms

/-- The claim's formula (spec §4.2 step 4): mean absolute error between
prediction and measurements, the mean taken only over the entries selected
by the valid mask. -/
def specMaskedMAE (mask : List Bool) (pred target : List ℚ) : ℚ :=
  maskedErrSum (fun d => |d|) mask pred target / (countTrue mask : ℚ)

/-- The claim's formula (spec §4.2 step 4): mean squared error between
prediction and measurements, the mean taken only over the entries selected
by the valid mask. -/
def specMaskedMSE (mask : List Bool) (pred target : List ℚ) : ℚ :=
  maskedErrSum (fun d => d ^ 2) mask pred target / (countTrue mask : ℚ)

/-- Two prediction tensors agree at every position the mask selects (they
may differ arbitrarily at unselected positions). -/
def agreeOnMask : List Bool → List ℚ → List ℚ → Bool
  | true :: ms, p :: ps, q :: qs => decide (p = q) && agreeOnMask ms ps qs
  | false :: ms, _ :: ps, _ :: qs => agreeOnMask ms ps qs
  | [], [], [] => true
  | _, _, _ => false

/-- numpy `.squeeze()` with no axis argument (line 262): removes every
axis of length 1 from the shape. -/
def squeezeShape (shape : List ℕ) : List ℕ :=
  shape.filter (fun n => decide (n ≠ 1))

/-- The external collaborators the loop orchestrates, as abstract
interfaces (spec §1, §6): the text/VAE encoders' outputs, the scheduler's
timestep table and step function, the U-Net, the decode-unpad-resize path
back to the original `H × W` resolution, and the autodiff/optimizer step.
`decodeUnpadResize` carries the resize contract — the result has exactly
`H * W` elements (the source's `resize_antialias(·, original_resolution,
interpolation_mode)` at lines 172-177).  `backwardRescaleStep` packages
lines 225-235 — `loss.backward()`, the gradient rescaling and
`optimizer.step()` — whose inputs are the timestep, the current latent and
calibration parameters, the current noise estimate and the loss value; the
rescaling arithmetic itself is irrational (Euclidean norms) and is
modelled exactly over `ℝ` below (`pred_epsilon`, `scalingFactor`,
`rescaleGrad`). -/
structure Externals (H W : ℕ) where
  imageLatent : List ℚ
  initLatent : List ℚ
  timesteps : ℤ → List ℕ
  unet : List ℚ → ℕ → List ℚ
  stepPredOriginal : List ℚ → ℕ → List ℚ → List ℚ
  stepPrevSample : List ℚ → ℕ → List ℚ → List ℚ
  decodeUnpadResize : List ℚ → String → { l : List ℚ // l.length = H * W }
  backwardRescaleStep : ℕ → List ℚ → ℚ × ℚ → List ℚ → ℚ → List ℚ × ℚ × ℚ

/-- The mutable state of the denoising loop: the optimized latent
(`pred_latent`, line 144), the calibration parameters (lines 141-143,
scalar mode) and the sparse statistics bound at lines 147-148. -/
structure LoopState where
  predLatent : List ℚ
  scale : ℚ
  shift : ℚ
  sparseRange : ℚ
  sparseLower : ℚ
deriving DecidableEq

/-- One iteration of the denoising loop (lines 190-250): U-Net forward
pass on the concatenated latents, `scheduler.step(...).pred_original_sample`,
decode-unpad-resize to an affine-invariant prediction, the affine
calibration map, the masked L1+L2 loss, the backward/rescale/optimizer
update of the latent and calibration parameters, and finally the regular
denoising advance `scheduler.step(noise, t, pred_latent).prev_sample`
applied to the freshly updated latent (lines 238-241).  The statistics
`sparseRange` and `sparseLower` are only read, never written. -/
def loopStep {H W : ℕ} (ext : Externals H W) (mode : String)
    (mask : List Bool) (sparseVals : List ℚ) (t : ℕ) (s : LoopState) :
    LoopState :=
  let noise := ext.unet (ext.imageLatent ++ s.predLatent) t
  let predOriginal := ext.stepPredOriginal noise t s.predLatent
  let affinePred := (ext.decodeUnpadResize predOriginal mode).val
  let metricPred :=
    affine_to_metric s.scale s.shift s.sparseRange s.sparseLower affinePred
  let loss := loss_l1l2 (maskSelect mask metricPred) (maskSelect mask sparseVals)
  let upd := ext.backwardRescaleStep t s.predLatent (s.scale, s.shift) noise loss
  { predLatent := ext.stepPrevSample noise t upd.1
    scale := upd.2.1
    shift := upd.2.2
    sparseRange := s.sparseRange
    sparseLower := s.sparseLower }

/-- The denoising loop of lines 190-250: fold `loopStep` over the
scheduler's timestep sequence, strictly in order. -/
def runLoop {H W : ℕ} (ext : Externals H W) (mode : String)
    (mask : List Bool) (sparseVals : List ℚ) (ts : List ℕ)
    (s : LoopState) : LoopState :=
  ts.foldl (fun s t => loopStep ext mode mask sparseVals t s) s

/-- The whole invocation `__call__(image, sparse_depth, ...)` in the order
of the source: the rank check of lines 94-99 (the encoder/preprocessing of
lines 101-128 is external and enters through `ext`), the mask of line 132,
the statistics of lines 145-148 (torch raises on an empty reduction,
surfaced here as `PipeError.emptyReduction`), the denoising loop over the
scheduler's timesteps (lines 188-250), the final decode through the same
calibration path (lines 254-256), and numpy conversion plus `.squeeze()`
of the `[N, H, W, 1]` array (lines 259-262).  The result pairs the output
shape with the flattened output values. -/
def runPipeline (H W : ℕ) (ext : Externals H W) (sparseShape : List ℕ)
    (sparse : List ℚ) (numInferenceSteps : ℤ) (interpolationMode : String) :
    Except PipeError (List ℕ × List ℚ) :=
  match validateCallInputs sparseShape (H, W) numInferenceSteps interpolationMode with
  | .error e => .error e
  | .ok _ =>
    let mask := sparseMask sparse
    let valid := maskSelect mask sparse
    match reduceMin valid, reduceMax valid with
    | some depthMin, some depthMax =>
      let s0 : LoopState :=
        { predLatent := ext.initLatent, scale := 1, shift := 1,
          sparseRange := depthMax - depthMin, sparseLower := depthMin }
      let sF := runLoop ext interpolationMode mask sparse
        (ext.timesteps numInferenceSteps) s0
      let pred := affine_to_metric sF.scale sF.shift sF.sparseRange
        sF.sparseLower (ext.decodeUnpadResize sF.predLatent interpolationMode).val
      .ok (squeezeShape [1, H, W, 1], pred)
    | _, _ => .error PipeError.emptyReduction

/-- The loop state as `runPipeline` assembles it before the loop: the
initial latent, unit calibration parameters (lines 141-144) and the
statistics of lines 145-148 with `ObservedMin = lo`, `ObservedMax = hi`. -/
def initState {H W : ℕ} (ext : Externals H W) (lo hi : ℚ) : LoopState :=
  { predLatent := ext.initLatent, scale := 1, shift := 1,
    sparseRange := hi - lo, sparseLower := lo }

/-- The loop state after all timesteps of one invocation are consumed. -/
def finalState (H W : ℕ) (ext : Externals H W) (mode : String)
    (sparse : List ℚ) (n : ℤ) (lo hi : ℚ) : LoopState :=
  runLoop ext mode (sparseMask sparse) sparse (ext.timesteps n)
    (initState ext lo hi)

/-- A concrete, trivial instantiation of the external collaborators, used
to evaluate the orchestration on closed inputs. -/
def trivialExternals (H W : ℕ) : Externals H W where
  imageLatent := []
  initLatent := []
  timesteps := fun _ => []
  unet := fun _ _ => []
  stepPredOriginal := fun _ _ l => l
  stepPrevSample := fun _ _ l => l
  decodeUnpadResize := fun _ _ => ⟨List.replicate (H * W) 0, by simp⟩
  backwardRescaleStep := fun _ l ss _ _ => (l, ss.1, ss.2)

/-- Euclidean norm of a (flattened) tensor, as `torch.linalg.norm` with no
order argument computes it (lines 229-230): the square root of the sum of
the squared entries. -/
noncomputable def tensorNorm (v : List ℝ) : ℝ :=
  Real.sqrt ((v.map (fun x => x ^ 2)).sum)

/-- `pred_epsilon` of lines 205-210: with `alpha_prod_t =
scheduler.alphas_cumprod[t]` and `beta_prod_t = 1 - alpha_prod_t`,
`pred_epsilon = alpha_prod_t ** 0.5 * noise + beta_prod_t ** 0.5 *
pred_latent`, computed from the noise estimate and the pre-gradient
latent. -/
noncomputable def pred_epsilon (alphaProdT : ℝ) (noise predLatent : List ℝ) :
    List ℝ :=
  let betaProdT := 1 - alphaProdT
  List.zipWith
    (fun n x => Real.sqrt alphaProdT * n + Real.sqrt betaProdT * x)
    noise predLatent

/-- The gradient-rescaling factor of line 231:
`pred_epsilon_norm / max(depth_latent_grad_norm, 1e-8)`. -/
noncomputable def scalingFactor (predEps grad : List ℝ) : ℝ :=
  tensorNorm predEps / max (tensorNorm grad) (1e-8)

/-- Line 232, `pred_latent.grad *= scaling_factor`: every entry of the
latent gradient is multiplied by the rescaling factor. -/
noncomputable def rescaleGrad (predEps grad : List ℝ) : List ℝ :=
  grad.map (fun g => scalingFactor predEps grad * g)

/-- The gradients produced by `loss.backward()` (line 225) on the three
parameter groups: the latent and the two calibration parameters (grids in
the element-wise scaling mode, singletons in the scalar mode). -/
structure IterGrads where
  latentGrad : List ℝ
  scaleGrad : List ℝ
  shiftGrad : List ℝ

/-- The whole rescaling block of lines 228-232 as it acts on the gradient
triple: only `pred_latent.grad` is multiplied by the factor; the
calibration parameters' gradients are not touched. -/
noncomputable def rescaleStep (predEps : List ℝ) (g : IterGrads) : IterGrads :=
  { g with latentGrad := rescaleGrad predEps g.latentGrad }

theorem tensorNorm_nonneg (v : List ℝ) : 0 ≤ tensorNorm v :=
  Real.sqrt_nonneg _

theorem tensorNorm_map_mul (c : ℝ) (v : List ℝ) :
    tensorNorm (v.map (fun x => c * x)) = |c| * tensorNorm v := by
  unfold tensorNorm
  rw [List.map_map]
  have h : ((fun x => x ^ 2) ∘ fun x => c * x) = fun x => c ^ 2 * x ^ 2 := by
    funext x
    simp [mul_pow]
  rw [h, List.sum_map_mul_left, Real.sqrt_mul (sq_nonneg c), Real.sqrt_sq_eq_abs]

theorem scalingFactor_nonneg (predEps grad : List ℝ) :
    0 ≤ scalingFactor predEps grad := by
  unfold scalingFactor
  exact div_nonneg (tensorNorm_nonneg predEps)
    (le_trans (by norm_num) (le_max_right (tensorNorm grad) (1e-8)))

/-- Claim C2: at every iteration, the factor applied to the latent
gradient equals `norm(pred_epsilon) / max(norm(grad), 1e-8)`, where
`pred_epsilon = sqrt(alpha_cumprod t) * noise + sqrt(1 - alpha_cumprod t)
* latent` is computed from the pre-gradient latent state; and whenever the
raw gradient's norm is at least `1e-8`, the rescaled gradient's norm
equals `norm(pred_epsilon)`. -/
theorem rescaled_grad_norm_eq_pred_epsilon_norm (alphaProdT : ℝ)
    (noise latent grad : List ℝ) :
    scalingFactor (pred_epsilon alphaProdT noise latent) grad
      = tensorNorm (pred_epsilon alphaProdT noise latent)
        / max (tensorNorm grad) (1e-8)
    ∧ (1e-8 ≤ tensorNorm grad →
        tensorNorm (rescaleGrad (pred_epsilon alphaProdT noise latent) grad)
          = tensorNorm (pred_epsilon alphaProdT noise latent)) := by
  refine ⟨rfl, fun h => ?_⟩
  have hpos : (0 : ℝ) < tensorNorm grad := lt_of_lt_of_le (by norm_num) h
  have hmax : max (tensorNorm grad) (1e-8) = tensorNorm grad := max_eq_left h
  unfold rescaleGrad
  rw [tensorNorm_map_mul, abs_of_nonneg (scalingFactor_nonneg _ _)]
  unfold scalingFactor
  rw [hmax, div_mul_cancel₀ _ (ne_of_gt hpos)]

/-- Witness for C2: a gradient of norm `1 ≥ 1e-8`; after rescaling
against `pred_epsilon 1 [3] [7] = [3]`, the gradient's norm equals the
norm of `pred_epsilon`. -/
theorem rescaled_grad_norm_eq_pred_epsilon_norm_witness :
    (1e-8 : ℝ) ≤ tensorNorm [(1 : ℝ)]
    ∧ tensorNorm (rescaleGrad (pred_epsilon 1 [3] [7]) [(1 : ℝ)])
        = tensorNorm (pred_epsilon 1 [3] [7]) := by
  have h1 : tensorNorm [(1 : ℝ)] = 1 := by
    simp [tensorNorm, Real.sqrt_one]
  have hle : (1e-8 : ℝ) ≤ tensorNorm [(1 : ℝ)] := by
    rw [h1]
    norm_num
  exact ⟨hle, (rescaled_grad_norm_eq_pred_epsilon_norm 1 [3] [7] [1]).2 hle⟩

/-- Claim C10: the rescaling factor is non-negative, the rescaled latent
gradient handed to the optimizer is exactly that non-negative scalar times
the raw gradient (so rescaling never reverses the guidance direction),
and the calibration parameters' gradients are left unrescaled. -/
theorem rescaling_factor_nonneg_and_selective (predEps : List ℝ)
    (g : IterGrads) :
    0 ≤ scalingFactor predEps g.latentGrad
    ∧ (rescaleStep predEps g).latentGrad
        = g.latentGrad.map (fun x => scalingFactor predEps g.latentGrad * x)
    ∧ (rescaleStep predEps g).scaleGrad = g.scaleGrad
    ∧ (rescaleStep predEps g).shiftGrad = g.shiftGrad :=
  ⟨scalingFactor_nonneg _ _, rfl, rfl, rfl⟩

theorem runLoop_preserves_stats {H W : ℕ} (ext : Externals H W)
    (mode : String) (mask : List Bool) (sv : List ℚ) :
    ∀ (ts : List ℕ) (s : LoopState),
      (runLoop ext mode mask sv ts s).sparseRange = s.sparseRange
      ∧ (runLoop ext mode mask sv ts s).sparseLower = s.sparseLower := by
  intro ts
  induction ts with
  | nil => exact fun s => ⟨rfl, rfl⟩
  | cons t ts ih =>
    intro s
    have h := ih (loopStep ext mode mask sv t s)
    simpa [runLoop, List.foldl_cons] using h

theorem reduceMin_cons_of_some (x : ℚ) (l : List ℚ) (m : ℚ)
    (h : reduceMin l = some m) : reduceMin (x :: l) = some (min x m) := by
  unfold reduceMin
  rw [h]

theorem reduceMax_cons_of_some (x : ℚ) (l : List ℚ) (m : ℚ)
    (h : reduceMax l = some m) : reduceMax (x :: l) = some (max x m) := by
  unfold reduceMax
  rw [h]

theorem reduceMin_reduceMax_of_ne_nil (l : List ℚ) (h : l ≠ []) :
    ∃ lo hi, reduceMin l = some lo ∧ reduceMax l = some hi ∧ lo ≤ hi := by
  induction l with
  | nil => exact absurd rfl h
  | cons x xs ih =>
    cases hxs : xs with
    | nil =>
      refine ⟨x, x, ?_, ?_, le_refl x⟩ <;> simp [hxs, reduceMin, reduceMax]
    | cons y ys =>
      obtain ⟨lo, hi, hmin, hmax, hle⟩ := ih (by simp [hxs])
      refine ⟨min x lo, max x hi, ?_, ?_, ?_⟩
      · exact hxs ▸ reduceMin_cons_of_some x xs lo hmin
      · exact hxs ▸ reduceMax_cons_of_some x xs hi hmax
      · exact le_trans (min_le_right x lo) (le_trans hle (le_max_right x hi))

/-- Claim C7: the sparse statistics are bound once before the loop and are
never written by any iteration — across any number of loop steps the
`sparseRange` and `sparseLower` fields of the state are unchanged — and
for every nonempty list of valid entries, the `max` reduction dominates
the `min` reduction, so `range = max - min ≥ 0`. -/
theorem stats_constant_and_ordered :
    (∀ (H W : ℕ) (ext : Externals H W) (mode : String) (mask : List Bool)
        (sv : List ℚ) (ts : List ℕ) (s : LoopState),
      (runLoop ext mode mask sv ts s).sparseRange = s.sparseRange
      ∧ (runLoop ext mode mask sv ts s).sparseLower = s.sparseLower)
    ∧ (∀ l : List ℚ, l ≠ [] →
        ∃ lo hi, reduceMin l = some lo ∧ reduceMax l = some hi ∧ lo ≤ hi) :=
  ⟨fun _ _ ext mode mask sv ts s => runLoop_preserves_stats ext mode mask sv ts s,
   reduceMin_reduceMax_of_ne_nil⟩

/-- Witness for C7: a two-step loop run on trivial externals leaves the
statistics of the initial state unchanged, and the valid entries `[2, 8]`
have `min = 2 ≤ max = 8`. -/
theorem stats_constant_and_ordered_witness :
    ((runLoop (trivialExternals 2 2) bilinearMode [true, true] [2, 8] [5, 9]
        { predLatent := [], scale := 1, shift := 1,
          sparseRange := 6, sparseLower := 2 }).sparseRange
      = (6 : ℚ)
    ∧ (runLoop (trivialExternals 2 2) bilinearMode [true, true] [2, 8] [5, 9]
        { predLatent := [], scale := 1, shift := 1,
          sparseRange := 6, sparseLower := 2 }).sparseLower
      = (2 : ℚ))
    ∧ ∃ lo hi, reduceMin [2, 8] = some lo ∧ reduceMax [2, 8] = some hi
        ∧ lo ≤ hi :=
  ⟨stats_constant_and_ordered.1 2 2 (trivialExternals 2 2) bilinearMode
      [true, true] [2, 8] [5, 9] _,
   stats_constant_and_ordered.2 [2, 8] (by decide)⟩

theorem maskSelect_length :
    ∀ (m : List Bool) (p : List ℚ), p.length = m.length →
      (maskSelect m p).length = countTrue m := by
  intro m
  induction m with
  | nil =>
    intro p hp
    cases p with
    | nil => rfl
    | cons x ps => simp at hp
  | cons b ms ih =>
    intro p hp
    cases p with
    | nil => simp at hp
    | cons x ps =>
      cases b with
      | true => simp [maskSelect, countTrue, ih ps (by simpa using hp)]
      | false => simp [maskSelect, countTrue, ih ps (by simpa using hp)]

theorem maskSelect_err_sum (f : ℚ → ℚ) :
    ∀ (m : List Bool) (p t : List ℚ), p.length = m.length →
      t.length = m.length →
      ((List.zipWith (fun a b => a - b) (maskSelect m p)
          (maskSelect m t)).map f).sum = maskedErrSum f m p t := by
  intro m
  induction m with
  | nil =>
    intro p t hp ht
    cases p with
    | nil =>
      cases t with
      | nil => simp [maskSelect, maskedErrSum]
      | cons y ts => simp at ht
    | cons x ps => simp at hp
  | cons b ms ih =>
    intro p t hp ht
    cases p with
    | nil => simp at hp
    | cons x ps =>
      cases t with
      | nil => simp at ht
      | cons y ts =>
        cases b with
        | true =>
          simp [maskSelect, maskedErrSum,
            ih ps ts (by simpa using hp) (by simpa using ht)]
        | false =>
          simp [maskSelect, maskedErrSum,
            ih ps ts (by simpa using hp) (by simpa using ht)]

theorem maskSelect_of_agreeOnMask :
    ∀ (m : List Bool) (p q : List ℚ), agreeOnMask m p q = true →
      maskSelect m p = maskSelect m q := by
  intro m
  induction m with
  | nil =>
    intro p q h
    cases p <;> cases q <;> simp_all [agreeOnMask, maskSelect]
  | cons b ms ih =>
    intro p q h
    cases p with
    | nil => cases q <;> cases b <;> simp_all [agreeOnMask, maskSelect]
    | cons x ps =>
      cases q with
      | nil => cases b <;> simp_all [agreeOnMask, maskSelect]
      | cons y qs =>
        cases b with
        | true =>
          simp only [agreeOnMask, Bool.and_eq_true, decide_eq_true_eq] at h
          simp [maskSelect, h.1, ih ps qs h.2]
        | false =>
          simp only [agreeOnMask] at h
          simp [maskSelect, ih ps qs h]

/-- Claim C6: the guidance loss is the masked-entry mean absolute error
plus the masked-entry mean squared error, and entries outside the valid
mask never contribute: any prediction agreeing with the original at the
mask positions yields the same loss. -/
theorem guidance_loss_is_masked_mae_plus_mse (mask : List Bool)
    (pred target pred2 : List ℚ) (hp : pred.length = mask.length)
    (ht : target.length = mask.length)
    (hagree : agreeOnMask mask pred pred2 = true) :
    loss_l1l2 (maskSelect mask pred) (maskSelect mask target)
      = specMaskedMAE mask pred target + specMaskedMSE mask pred target
    ∧ loss_l1l2 (maskSelect mask pred2) (maskSelect mask target)
      = loss_l1l2 (maskSelect mask pred) (maskSelect mask target) := by
  constructor
  · simp only [loss_l1l2, specMaskedMAE, specMaskedMSE]
    rw [maskSelect_err_sum (fun d => |d|) mask pred target hp ht,
      maskSelect_err_sum (fun d => d ^ 2) mask pred target hp ht,
      maskSelect_length mask pred hp]
  · rw [maskSelect_of_agreeOnMask mask pred pred2 hagree]

/-- Witness for C6 at the mask `[true, false]`: only the first entry
enters the loss, and changing the unmasked second entry (from `100` to
`-5`) leaves the loss unchanged. -/
theorem guidance_loss_is_masked_mae_plus_mse_witness :
    ([3, 100] : List ℚ).length = ([true, false] : List Bool).length
    ∧ ([1, 7] : List ℚ).length = ([true, false] : List Bool).length
    ∧ agreeOnMask [true, false] [3, 100] [3, -5] = true
    ∧ (loss_l1l2 (maskSelect [true, false] [3, 100])
          (maskSelect [true, false] [1, 7])
        = specMaskedMAE [true, false] [3, 100] [1, 7]
          + specMaskedMSE [true, false] [3, 100] [1, 7]
      ∧ loss_l1l2 (maskSelect [true, false] [3, -5])
          (maskSelect [true, false] [1, 7])
        = loss_l1l2 (maskSelect [true, false] [3, 100])
          (maskSelect [true, false] [1, 7])) :=
  ⟨rfl, rfl, by decide,
   guidance_loss_is_masked_mae_plus_mse [true, false] [3, 100] [1, 7] [3, -5]
     rfl rfl (by decide)⟩

/-- Claim C1: with `range = ObservedMax - ObservedMin` and
`lower = ObservedMin` the statistics of the sparse field's valid entries,
the affine calibration map sends each entry `d` of a depth tensor to
`scale^2 * range * d + shift^2 * lower`; in particular at `scale = 1` and
`shift = 1` it is exactly `d ↦ range * d + lower`. -/
theorem affine_calibration_formula (sparse : List ℚ) (lo hi : ℚ)
    (hmin : reduceMin (maskSelect (sparseMask sparse) sparse) = some lo)
    (hmax : reduceMax (maskSelect (sparseMask sparse) sparse) = some hi)
    (scale shift : ℚ) (d : List ℚ) :
    affine_to_metric scale shift (hi - lo) lo d
      = d.map (fun x => scale ^ 2 * (hi - lo) * x + shift ^ 2 * lo)
    ∧ affine_to_metric 1 1 (hi - lo) lo d
      = d.map (fun x => (hi - lo) * x + lo) := by
  refine ⟨rfl, ?_⟩
  simp [affine_to_metric]

/-- Witness for C1 on the sparse field `[2, 0, 8]` (valid entries `2` and
`8`, so `lower = 2`, `range = 6`) and the depth tensor `[3]`. -/
theorem affine_calibration_formula_witness :
    reduceMin (maskSelect (sparseMask [2, 0, 8]) [2, 0, 8]) = some 2
    ∧ reduceMax (maskSelect (sparseMask [2, 0, 8]) [2, 0, 8]) = some 8
    ∧ affine_to_metric 1 1 (8 - 2) 2 [3]
        = [3].map (fun x => ((8 : ℚ) - 2) * x + 2) :=
  ⟨by decide, by decide,
   (affine_calibration_formula [2, 0, 8] 2 8 (by decide) (by decide) 1 1 [3]).2⟩

/-- Claim C4: when the sparse field has zero valid (positive) entries, the
invocation surfaces an error to the caller — the empty-reduction error
torch raises when `min()` is taken over the empty masked selection at
line 145 — before any loop iteration runs, rather than silently producing
NaN-propagated output or averaging a loss over zero elements. -/
theorem degenerate_empty_mask_errors (H W : ℕ) (ext : Externals H W)
    (shape : List ℕ) (sparse : List ℚ) (n : ℤ) (mode : String)
    (h2 : shape.length = 2)
    (hempty : maskSelect (sparseMask sparse) sparse = []) :
    runPipeline H W ext shape sparse n mode
      = .error PipeError.emptyReduction := by
  simp [runPipeline, validateCallInputs, h2, hempty, reduceMin]

/-- Witness for C4: a rank-2 sparse field `[0, -1]` with no positive
entry makes the invocation return the empty-reduction error. -/
theorem degenerate_empty_mask_errors_witness :
    ([4, 4] : List ℕ).length = 2
    ∧ maskSelect (sparseMask [0, -1]) [0, -1] = []
    ∧ runPipeline 4 4 (trivialExternals 4 4) [4, 4] [0, -1] 1 bilinearMode
        = .error PipeError.emptyReduction :=
  ⟨rfl, by decide,
   degenerate_empty_mask_errors 4 4 (trivialExternals 4 4) [4, 4] [0, -1] 1
     bilinearMode rfl (by decide)⟩

/-- Counterexample to claim C3: a rank-2 sparse field of spatial size
`3 × 3` against a `4 × 4` image — the claim says the invocation fails
with an input-shape error before any computation begins, but the boundary
validation of lines 94-99 only examines the rank and accepts the input;
the mismatch surfaces only later, inside the first loop iteration, when
the mask is applied to the image-resolution prediction at line 223. -/
theorem shape_mismatch_passes_boundary_cex :
    validateCallInputs [3, 3] (4, 4) 50 bilinearMode = .ok ()
    ∧ [3, 3] ≠ [4, 4] :=
  ⟨rfl, by decide⟩

/-- Claim C3 as amended: the invocation fails with the input-shape error
before any computation exactly when the sparse field is not
2-dimensional; a spatial-size mismatch with the image is not checked at
the boundary. -/
theorem boundary_rejects_exactly_non_2d (shape : List ℕ) (img : ℕ × ℕ)
    (n : ℤ) (mode : String) :
    (shape.length ≠ 2 →
      validateCallInputs shape img n mode = .error PipeError.sparseNotTwoDim)
    ∧ (shape.length = 2 → validateCallInputs shape img n mode = .ok ()) := by
  constructor <;> intro h <;> simp [validateCallInputs, h]

/-- Witness for the amended C3: a rank-1 field is rejected, a rank-2
field of any spatial size is accepted. -/
theorem boundary_rejects_exactly_non_2d_witness :
    validateCallInputs [9] (4, 4) 50 bilinearMode
      = .error PipeError.sparseNotTwoDim
    ∧ validateCallInputs [3, 3] (7, 7) 50 bilinearMode = .ok () :=
  ⟨(boundary_rejects_exactly_non_2d [9] (4, 4) 50 bilinearMode).1 (by decide),
   (boundary_rejects_exactly_non_2d [3, 3] (7, 7) 50 bilinearMode).2 rfl⟩

/-- Counterexample to claim C5: the entry `+∞` is non-finite, so the
claim says it must be treated as unmeasured; but the code's mask
`sparse_depth > 0` evaluates to true on `+∞` under IEEE comparison and
treats it as a valid measurement. -/
theorem posinf_counted_valid_cex :
    sparseMaskF [FVal.posInf] = [true]
    ∧ FVal.isFinite FVal.posInf = false
    ∧ specValidEntry FVal.posInf = false :=
  ⟨rfl, rfl, rfl⟩

/-- Claim C5 as amended: the mask is true exactly at the entries that
compare strictly greater than zero under IEEE semantics — every positive
finite entry and also `+∞`; NaN, `-∞` and every entry `≤ 0` are treated
as unmeasured. -/
theorem valid_mask_characterization (d : List FVal) (v : FVal) :
    sparseMaskF d = d.map FVal.gtZero
    ∧ (FVal.gtZero v = true ↔
        v = FVal.posInf ∨ ∃ q : ℚ, v = FVal.fin q ∧ 0 < q) := by
  refine ⟨rfl, ?_⟩
  cases v with
  | fin q => simp [FVal.gtZero]
  | posInf => simp [FVal.gtZero]
  | negInf => simp [FVal.gtZero]
  | nan => simp [FVal.gtZero]

/-- Witness for the amended C5: the positive finite entry `3` is masked
as valid. -/
theorem valid_mask_characterization_witness :
    FVal.gtZero (FVal.fin 3) = true :=
  (valid_mask_characterization [] (FVal.fin 3)).2.mpr
    (Or.inr ⟨3, rfl, by decide⟩)

/-- Counterexample to claim C8: the non-positive step count `0` and the
unknown interpolation mode `"cubic"` pass the call boundary — `__call__`
performs no configuration validation; for such values failures, if any,
arise only later, from the external scheduler or from the resize inside
the first loop iteration. -/
theorem invalid_config_passes_boundary_cex :
    validateCallInputs [4, 4] (4, 4) 0 cubicMode = .ok ()
    ∧ ¬ ((0 : ℤ) > 0)
    ∧ cubicMode ≠ bilinearMode
    ∧ cubicMode ≠ nearestMode :=
  ⟨rfl, by decide, by decide, by decide⟩

/-- Claim C8 as amended: the call boundary performs no configuration
validation — its outcome is entirely independent of the step count and
the interpolation mode (only the sparse rank is examined there); an
unknown mode can only fail inside the first loop iteration's external
resize, and a non-positive step count is forwarded unchecked to the
external scheduler. -/
theorem boundary_ignores_config (shape : List ℕ) (img : ℕ × ℕ) (n m : ℤ)
    (mode mode2 : String) :
    validateCallInputs shape img n mode = validateCallInputs shape img m mode2 :=
  rfl

theorem runPipeline_stats_ok (H W : ℕ) (ext : Externals H W)
    (shape : List ℕ) (sparse : List ℚ) (n : ℤ) (mode : String)
    (h2 : shape.length = 2) (lo hi : ℚ)
    (hmin : reduceMin (maskSelect (sparseMask sparse) sparse) = some lo)
    (hmax : reduceMax (maskSelect (sparseMask sparse) sparse) = some hi) :
    runPipeline H W ext shape sparse n mode
      = .ok (squeezeShape [1, H, W, 1],
          affine_to_metric (finalState H W ext mode sparse n lo hi).scale
            (finalState H W ext mode sparse n lo hi).shift
            (finalState H W ext mode sparse n lo hi).sparseRange
            (finalState H W ext mode sparse n lo hi).sparseLower
            (ext.decodeUnpadResize
              (finalState H W ext mode sparse n lo hi).predLatent mode).val) := by
  simp [runPipeline, validateCallInputs, h2, hmin, hmax, finalState, initState]

/-- Counterexample to claim C9: a valid `1 × 2` image with a matching
rank-2 sparse field holding two valid entries; numpy's final `.squeeze()`
removes every singleton axis, so the returned array has shape `[2]`, not
the image's spatial shape `1 × 2`. -/
theorem squeeze_drops_singleton_axis_cex :
    runPipeline 1 2 (trivialExternals 1 2) [1, 2] [3, 5] 1 bilinearMode
      = .ok ([2], [3, 3])
    ∧ [2] ≠ [1, 2] := by
  refine ⟨?_, by decide⟩
  norm_num [runPipeline, validateCallInputs, sparseMask, maskSelect,
    reduceMin, reduceMax, runLoop, trivialExternals, affine_to_metric,
    squeezeShape, List.replicate]

/-- Claim C9 as amended: for every valid input (rank-2 sparse field, at
least one valid entry) whose image dimensions are both at least 2, the
invocation succeeds and returns a single-channel map with exactly the
spatial shape `H × W` — the `[1, H, W, 1]` array with its singleton axes
squeezed away — carrying `H * W` values (all finite by construction in
this exact-arithmetic model); when `H` or `W` equals 1, numpy's
`.squeeze()` also removes that spatial axis. -/
theorem output_shape_HW (H W : ℕ) (ext : Externals H W) (shape : List ℕ)
    (sparse : List ℚ) (n : ℤ) (mode : String) (h2 : shape.length = 2)
    (hv : maskSelect (sparseMask sparse) sparse ≠ [])
    (hH : 2 ≤ H) (hW : 2 ≤ W) :
    ∃ vals : List ℚ,
      runPipeline H W ext shape sparse n mode = .ok ([H, W], vals)
      ∧ vals.length = H * W := by
  obtain ⟨lo, hi, hmin, hmax, hle⟩ := reduceMin_reduceMax_of_ne_nil _ hv
  have hsq : squeezeShape [1, H, W, 1] = [H, W] := by
    have h1 : H ≠ 1 := by omega
    have hw1 : W ≠ 1 := by omega
    simp [squeezeShape, h1, hw1]
  have hrun := runPipeline_stats_ok H W ext shape sparse n mode h2 lo hi hmin hmax
  rw [hsq] at hrun
  refine ⟨_, hrun, ?_⟩
  simp only [affine_to_metric, List.length_map]
  exact (ext.decodeUnpadResize _ _).property

/-- Witness for the amended C9: a `2 × 2` image with one valid sparse
entry yields a `[2, 2]`-shaped output of `4` values. -/
theorem output_shape_HW_witness :
    ([2, 2] : List ℕ).length = 2
    ∧ maskSelect (sparseMask [1, 0, 2, 0]) [1, 0, 2, 0] ≠ []
    ∧ ∃ vals : List ℚ,
        runPipeline 2 2 (trivialExternals 2 2) [2, 2] [1, 0, 2, 0] 1
          bilinearMode = .ok ([2, 2], vals)
        ∧ vals.length = 2 * 2 :=
  ⟨rfl, by decide,
   output_shape_HW 2 2 (trivialExternals 2 2) [2, 2] [1, 0, 2, 0] 1
     bilinearMode rfl (by decide) (by decide) (by decide)⟩

end MarigoldDC
